import Mathlib

/-!
Verification of `scripts/ingest_stock_data.py`: a shallow embedding of the
script's two components (`fetch_data`, `ingest_to_duckdb`) and its `main`
loop, together with proofs of the specified properties.

Modelling conventions:
* A pandas `DataFrame` is a list of column names plus a list of rows, each
  row a list of tagged values (`Value`).
* The provider (`yf.download`) is external; its result is a `RawFrame`
  (a date index plus provider-native columns).  Provider-side guarantees
  (column layout, chronological dates) appear as hypotheses.
* DuckDB is modelled as a map from table names to tables inside a map from
  file paths to databases (`FileSys`), with per-statement commit.
* Dates carry an explicit time-of-day component so that the DATE-column
  truncation performed by the database is visible in the model.
-/

/-- A cell value of a data frame or database table.  A date carries a day
ordinal and a time-of-day component (pandas timestamps have one; DuckDB's
DATE type drops it). -/
inductive Value where
  | vDate (day : Nat) (time : Nat)
  | vFloat (q : ℚ)
  | vInt (n : Int)
  | vStr (s : String)
deriving DecidableEq, Repr

/-- Index of the first occurrence of a column name. -/
def idxOf (c : String) : List String → Option Nat
  | [] => none
  | x :: xs => if x = c then some 0 else (idxOf c xs).map (· + 1)

/-- A pandas DataFrame: named columns and rows of values. -/
structure DataFrame where
  cols : List String
  rows : List (List Value)
deriving DecidableEq, Repr

/-- Cell of a row at a named column (`none` if the name is absent). -/
def getCell (cols : List String) (r : List Value) (c : String) : Option Value :=
  (idxOf c cols).bind fun i => r.get? i

/-- Column `c` of a frame as a list of values, `none` on a missing column (pandas
`KeyError`). -/
def DataFrame.col (df : DataFrame) (c : String) : Option (List Value) :=
  (idxOf c df.cols).map fun i => df.rows.map fun r => (r.get? i).getD (Value.vStr "")

/-- Renaming helper for `df.rename(columns=m)`: rename columns appearing in the map, leave the
rest. -/
def renameMap (m : List (String × String)) (c : String) : String :=
  match m.lookup c with
  | some c' => c'
  | none => c

/-- The operation `df.rename(columns=m, inplace=True)` on the model. -/
def DataFrame.rename (df : DataFrame) (m : List (String × String)) : DataFrame :=
  { df with cols := df.cols.map (renameMap m) }

/-- Column assignment `df[name] = vals`: overwrite an existing column in place, or append a
new column on the right. -/
def DataFrame.setCol (df : DataFrame) (name : String) (vals : List Value) : DataFrame :=
  match idxOf name df.cols with
  | some i => { df with rows := List.zipWith (fun r v => r.set i v) df.rows vals }
  | none => { cols := df.cols ++ [name],
              rows := List.zipWith (fun r v => r ++ [v]) df.rows vals }

/-- Column selection `df[[names]]`: select columns by name in the given order; `none` when a
name is absent (pandas `KeyError`). -/
def DataFrame.select (df : DataFrame) (names : List String) : Option DataFrame :=
  if names.all (fun n => (idxOf n df.cols).isSome) then
    some { cols := names,
           rows := df.rows.map fun r => names.map fun n => (getCell df.cols r n).getD (Value.vStr "") }
  else none

/-- The table returned by `yf.download`: indexed by date, with
provider-native column names. -/
structure RawFrame where
  indexName : String
  index : List Value
  cols : List String
  rows : List (List Value)
deriving DecidableEq, Repr

/-- The operation `df.reset_index(inplace=True)`: the index becomes the first column. -/
def RawFrame.reset_index (rf : RawFrame) : DataFrame :=
  { cols := rf.indexName :: rf.cols,
    rows := List.zipWith (fun d r => d :: r) rf.index rf.rows }

/-- The fixed lowercase output schema of `fetch_data` (source line 50). -/
def schemaNames : List String :=
  ["date", "open", "high", "low", "close", "adj_close", "volume", "ticker"]

/-- The function `fetch_data(ticker, start_date, end_date)` of the script, applied to the
frame the provider returned: reset the index, ensure `adj_close` (rename
`Adj Close` or default it to `Close`), attach the `ticker` column, rename to
the lowercase schema, and select the 8 columns in order.  `none` models an
uncaught `KeyError` (a referenced column is missing). -/
def fetch_data (raw : RawFrame) (ticker : String) : Option DataFrame :=
  let df := raw.reset_index
  let step1 : Option DataFrame :=
    if "Adj Close" ∈ df.cols then
      some (df.rename [("Adj Close", "adj_close")])
    else
      (df.col "Close").map fun closeVals => df.setCol "adj_close" closeVals
  step1.bind fun df1 =>
    let df2 := df1.setCol "ticker" (df1.rows.map fun _ => Value.vStr ticker)
    let df3 := df2.rename
      [("Date", "date"), ("Open", "open"), ("High", "high"),
       ("Low", "low"), ("Close", "close"), ("Volume", "volume")]
    df3.select schemaNames

/-- Helper for `os.path.dirname`, restricted to the forms the script meets: the part of
the path before the last `/`; the empty string when there is no `/`; `/` for
a path like `/x`.  Helper returning the characters before the last slash. -/
def dirnameAux : List Char → Option (List Char)
  | [] => none
  | c :: cs =>
    match dirnameAux cs with
    | some rest => some (c :: rest)
    | none => if c = '/' then some [] else none

/-- Python's `os.path.dirname(p)`. -/
def dirname (p : String) : String :=
  match dirnameAux p.data with
  | none => ""
  | some [] => "/"
  | some cs => String.mk cs

/-- A database table: a schema (column name, declared type) and stored
rows. -/
structure Table where
  schema : List (String × String)
  rows : List (List Value)
deriving DecidableEq, Repr

/-- A DuckDB database file: named tables. -/
structure Database where
  tables : List (String × Table)
deriving DecidableEq, Repr

/-- The world `ingest_to_duckdb` touches: directories that exist and
database files by path. -/
structure FileSys where
  dirs : List String
  dbs : List (String × Database)
deriving DecidableEq, Repr

/-- The fixed 8-column destination schema (source lines 61-70). -/
def stockSchema : List (String × String) :=
  [("date", "DATE"), ("open", "DOUBLE"), ("high", "DOUBLE"), ("low", "DOUBLE"),
   ("close", "DOUBLE"), ("adj_close", "DOUBLE"), ("volume", "BIGINT"),
   ("ticker", "VARCHAR")]

/-- Storing a value into a column of the given declared type: a timestamp
stored into a DATE column loses its time-of-day; otherwise the value must
match the declared type.  `none` is a conversion error failing the INSERT. -/
def storeValue : Value → String → Option Value
  | Value.vDate d _, "DATE" => some (Value.vDate d 0)
  | Value.vFloat q, "DOUBLE" => some (Value.vFloat q)
  | Value.vInt n, "BIGINT" => some (Value.vInt n)
  | Value.vStr s, "VARCHAR" => some (Value.vStr s)
  | _, _ => none

/-- Storing one row positionally against a schema; fails when the arity or a
value's type does not match. -/
def storeRow : List (String × String) → List Value → Option (List Value)
  | [], [] => some []
  | (_, ty) :: sch, v :: vs => do
    let v' ← storeValue v ty
    let vs' ← storeRow sch vs
    pure (v' :: vs')
  | _, _ => none

/-- Storing a batch of rows against a schema; fails when any row fails. -/
def storeRows (sch : List (String × String)) : List (List Value) → Option (List (List Value))
  | [] => some []
  | r :: rs => do
    let r' ← storeRow sch r
    let rs' ← storeRows sch rs
    pure (r' :: rs')

/-- The statement `INSERT INTO t SELECT * FROM df`: positional insert of all rows; the
statement is atomic, so any failing row fails the whole statement and
inserts nothing. -/
def insertRows (t : Table) (rows : List (List Value)) : Option Table :=
  (storeRows t.schema rows).map fun rs => { t with rows := t.rows ++ rs }

/-- The statement `CREATE TABLE IF NOT EXISTS`: a no-op when the name exists (its schema
is not checked), otherwise an empty table with the given schema. -/
def createTableIfNotExists (db : Database) (name : String)
    (schema : List (String × String)) : Database :=
  match db.tables.lookup name with
  | some _ => db
  | none => ⟨db.tables ++ [(name, ⟨schema, []⟩)]⟩

/-- Replace (or add) the named table. -/
def Database.setTable (db : Database) (name : String) (t : Table) : Database :=
  ⟨db.tables.map fun p => if p.1 = name then (p.1, t) else p⟩

/-- The database at a path; `duckdb.connect` creates an empty one for a new
file. -/
def lookupDb (fs : FileSys) (path : String) : Database :=
  ((fs.dbs.lookup path).getD ⟨[]⟩)

/-- Write a database back to its file. -/
def updateDb (fs : FileSys) (path : String) (db : Database) : FileSys :=
  { fs with dbs :=
      if (fs.dbs.lookup path).isSome then
        fs.dbs.map fun p => if p.1 = path then (p.1, db) else p
      else fs.dbs ++ [(path, db)] }

/-- Python's `os.makedirs(d, exist_ok=True)` on the model: creates the directory,
but `os.makedirs("")` raises `FileNotFoundError` even with `exist_ok`. -/
def makedirs (fs : FileSys) (d : String) : Option FileSys :=
  if d = "" then none
  else some { fs with dirs := if d ∈ fs.dirs then fs.dirs else fs.dirs ++ [d] }

/-- Everything an `ingest_to_duckdb` call did: the resulting world, whether
a connection was opened, whether it was closed, and the propagated error if
any (the source has no try/finally, so an INSERT failure skips
`con.close()`). -/
structure IngestOutcome where
  fs : FileSys
  opened : Bool
  closed : Bool
  err : Option String
deriving DecidableEq, Repr

/-- The function `ingest_to_duckdb(df, db_path, table_name)` of the script: make the
parent directory, connect, create the table if absent, positionally insert
every row of `df`, close.  Statements commit individually, so the table
creation persists even when the insert then fails; an error at any step
propagates and the steps after it (including `con.close()`) do not run. -/
def ingest_to_duckdb (fs : FileSys) (df : DataFrame) (db_path : String)
    (table_name : String := "stock_prices") : IngestOutcome :=
  match makedirs fs (dirname db_path) with
  | none => ⟨fs, false, false, some "FileNotFoundError"⟩
  | some fs1 =>
    let db0 := lookupDb fs1 db_path
    let db1 := createTableIfNotExists db0 table_name stockSchema
    match db1.tables.lookup table_name with
    | none => ⟨updateDb fs1 db_path db1, true, false, some "CatalogError"⟩
    | some t =>
      match insertRows t df.rows with
      | none => ⟨updateDb fs1 db_path db1, true, false, some "ConversionError"⟩
      | some t' => ⟨updateDb fs1 db_path (db1.setTable table_name t'), true, true, none⟩

/-- Row count of a table in a database file (0 when absent), the quantity
the spec's duplication scenario measures. -/
def rowCount (fs : FileSys) (path table_name : String) : Nat :=
  match ((lookupDb fs path).tables.lookup table_name) with
  | some t => t.rows.length
  | none => 0

/-- Read the stored rows of a table back (empty when absent). -/
def readTable (fs : FileSys) (path table_name : String) : List (List Value) :=
  match ((lookupDb fs path).tables.lookup table_name) with
  | some t => t.rows
  | none => []

/-- The per-ticker loop of `main` (source lines 90-94): fetch then ingest,
ticker by ticker; any uncaught error (provider failure, `KeyError` in
`fetch_data`, database error) aborts the remaining tickers.  Returns the
final world and the propagated error, if any. -/
def runMain (download : String → Except String RawFrame) (db_path : String)
    (fs : FileSys) : List String → FileSys × Option String
  | [] => (fs, none)
  | t :: rest =>
    match download t with
    | .error e => (fs, some e)
    | .ok raw =>
      match fetch_data raw t with
      | none => (fs, some "KeyError")
      | some df =>
        let out := ingest_to_duckdb fs df db_path "stock_prices"
        match out.err with
        | some e => (out.fs, some e)
        | none => runMain download db_path out.fs rest

/-! ### Closed forms of `fetch_data` on the provider's native layouts -/

/-- Provider-native columns when the adjusted-close column is present
(`auto_adjust=False`). -/
def yfCols : List String := ["Open", "High", "Low", "Close", "Adj Close", "Volume"]

/-- Provider-native columns when the adjusted-close column is absent. -/
def yfColsNoAdj : List String := ["Open", "High", "Low", "Close", "Volume"]

lemma length_eq_six {α : Type} (r : List α) (h : r.length = 6) :
    ∃ a b c d e f, r = [a, b, c, d, e, f] := by
  rcases r with _ | ⟨a, _ | ⟨b, _ | ⟨c, _ | ⟨d, _ | ⟨e, _ | ⟨f, _ | ⟨g, tl⟩⟩⟩⟩⟩⟩⟩ <;>
    simp_all

lemma length_eq_five {α : Type} (r : List α) (h : r.length = 5) :
    ∃ a b c d e, r = [a, b, c, d, e] := by
  rcases r with _ | ⟨a, _ | ⟨b, _ | ⟨c, _ | ⟨d, _ | ⟨e, _ | ⟨f, tl⟩⟩⟩⟩⟩⟩ <;>
    simp_all

/-- Rows-level computation of `fetch_data` in the adjusted-close-present
case: attach the ticker cell, then select (which is the identity on rows
already in schema order). -/
lemma fetch_rows_withAdj (ds : List Value) (rows : List (List Value)) (t : String)
    (h : ∀ r ∈ rows, r.length = 6) :
    (List.zipWith (fun r v => r ++ [v]) (List.zipWith (fun d r => d :: r) ds rows)
        ((List.zipWith (fun d r => d :: r) ds rows).map fun _ => Value.vStr t)).map
      (fun r => schemaNames.map fun n => (getCell schemaNames r n).getD (Value.vStr "")) =
    List.zipWith (fun d r => d :: (r ++ [Value.vStr t])) ds rows := by
  induction ds generalizing rows with
  | nil => simp
  | cons d ds ih =>
    cases rows with
    | nil => simp
    | cons r rows =>
      obtain ⟨a, b, c, d', e, f, rfl⟩ := length_eq_six r (h r (by simp))
      have ht := ih rows (fun r hr => h r (by simp [hr]))
      simp only [List.zipWith_cons_cons, List.map_cons]
      rw [ht]
      rfl

/-- With the adjusted-close column present, `fetch_data` renames it and the
output row for index date `d` and provider row `r` is `d :: r ++ [ticker]`:
the provider's native order already matches the target schema. -/
theorem fetch_data_withAdj (ds : List Value) (rows : List (List Value)) (t : String)
    (h : ∀ r ∈ rows, r.length = 6) :
    fetch_data ⟨"Date", ds, yfCols, rows⟩ t =
      some ⟨schemaNames, List.zipWith (fun d r => d :: (r ++ [Value.vStr t])) ds rows⟩ :=
  congrArg (fun rs => some ({ cols := schemaNames, rows := rs } : DataFrame))
    (fetch_rows_withAdj ds rows t h)

/-- Rows-level computation of `fetch_data` when the provider omits the
adjusted-close column: the `Close` cell (position 4 after `reset_index`) is
appended as `adj_close`, then the ticker cell, then `select` reorders
`volume` and `adj_close`. -/
lemma fetch_rows_noAdj (ds : List Value) (rows : List (List Value)) (t : String)
    (h : ∀ r ∈ rows, r.length = 5) :
    (List.zipWith (fun r v => r ++ [v])
        (List.zipWith (fun r v => r ++ [v]) (List.zipWith (fun d r => d :: r) ds rows)
          ((List.zipWith (fun d r => d :: r) ds rows).map fun r =>
            (r.get? 4).getD (Value.vStr "")))
        ((List.zipWith (fun r v => r ++ [v]) (List.zipWith (fun d r => d :: r) ds rows)
          ((List.zipWith (fun d r => d :: r) ds rows).map fun r =>
            (r.get? 4).getD (Value.vStr ""))).map fun _ => Value.vStr t)).map
      (fun r => schemaNames.map fun n =>
        (getCell ["date", "open", "high", "low", "close", "volume", "adj_close", "ticker"]
          r n).getD (Value.vStr "")) =
    List.zipWith (fun d r =>
      d :: (r.take 4 ++ [(r.get? 3).getD (Value.vStr "")] ++ (r.drop 4 ++ [Value.vStr t])))
      ds rows := by
  induction ds generalizing rows with
  | nil => simp
  | cons d ds ih =>
    cases rows with
    | nil => simp
    | cons r rows =>
      obtain ⟨a, b, c, d', e, rfl⟩ := length_eq_five r (h r (by simp))
      have ht := ih rows (fun r hr => h r (by simp [hr]))
      simp only [List.zipWith_cons_cons, List.map_cons]
      rw [ht]
      rfl

/-- With the adjusted-close column absent, `fetch_data` duplicates the raw
close (provider position 3) into `adj_close`, and the output row for index
date `d` and provider row `r` is
`d :: take 4 r ++ [close] ++ drop 4 r ++ [ticker]`. -/
theorem fetch_data_noAdj (ds : List Value) (rows : List (List Value)) (t : String)
    (h : ∀ r ∈ rows, r.length = 5) :
    fetch_data ⟨"Date", ds, yfColsNoAdj, rows⟩ t =
      some ⟨schemaNames, List.zipWith (fun d r =>
        d :: (r.take 4 ++ [(r.get? 3).getD (Value.vStr "")] ++ (r.drop 4 ++ [Value.vStr t])))
        ds rows⟩ :=
  congrArg (fun rs => some ({ cols := schemaNames, rows := rs } : DataFrame))
    (fetch_rows_noAdj ds rows t h)

/-! ### Association-list and state lemmas for the database model -/

lemma lookup_cons_str {β : Type} (k a1 : String) (a2 : β) (l : List (String × β)) :
    List.lookup k ((a1, a2) :: l) = if k = a1 then some a2 else List.lookup k l := by
  by_cases h : k = a1
  · subst h
    simp [List.lookup]
  · have hB : (k == a1) = false := beq_eq_false_iff_ne.mpr h
    simp [List.lookup, hB, h]

lemma lookup_append_of_none {β : Type} (l₁ l₂ : List (String × β)) (k : String)
    (h : l₁.lookup k = none) : (l₁ ++ l₂).lookup k = l₂.lookup k := by
  induction l₁ with
  | nil => rfl
  | cons a l ih =>
    obtain ⟨a1, a2⟩ := a
    rw [lookup_cons_str] at h
    rw [List.cons_append, lookup_cons_str]
    by_cases hk : k = a1
    · rw [if_pos hk] at h
      exact absurd h (by simp)
    · rw [if_neg hk] at h
      rw [if_neg hk]
      exact ih h

lemma lookup_append_of_some {β : Type} (l₁ l₂ : List (String × β)) (k : String) (v : β)
    (h : l₁.lookup k = some v) : (l₁ ++ l₂).lookup k = some v := by
  induction l₁ with
  | nil => exact absurd h (by simp [List.lookup])
  | cons a l ih =>
    obtain ⟨a1, a2⟩ := a
    rw [lookup_cons_str] at h
    rw [List.cons_append, lookup_cons_str]
    by_cases hk : k = a1
    · rw [if_pos hk] at h
      rw [if_pos hk]
      exact h
    · rw [if_neg hk] at h
      rw [if_neg hk]
      exact ih h

lemma lookup_replace {β : Type} (l : List (String × β)) (k : String) (v : β) :
    (l.map fun p => if p.1 = k then (p.1, v) else p).lookup k =
      (l.lookup k).map fun _ => v := by
  induction l with
  | nil => rfl
  | cons a l ih =>
    obtain ⟨a1, a2⟩ := a
    simp only [List.map_cons]
    by_cases hk : a1 = k
    · rw [if_pos hk]
      rw [lookup_cons_str, lookup_cons_str, if_pos hk.symm, if_pos hk.symm]
      rfl
    · rw [if_neg hk]
      rw [lookup_cons_str, lookup_cons_str]
      by_cases hq : k = a1
      · exact absurd hq.symm hk
      · rw [if_neg hq, if_neg hq]
        exact ih

lemma lookup_replace_ne {β : Type} (l : List (String × β)) (k q : String) (v : β)
    (h : q ≠ k) :
    (l.map fun p => if p.1 = k then (p.1, v) else p).lookup q = l.lookup q := by
  induction l with
  | nil => rfl
  | cons a l ih =>
    obtain ⟨a1, a2⟩ := a
    simp only [List.map_cons]
    by_cases hk : a1 = k
    · rw [if_pos hk]
      rw [lookup_cons_str, lookup_cons_str]
      have hq : ¬ q = a1 := fun hc => h (hc.trans hk)
      rw [if_neg hq, if_neg hq]
      exact ih
    · rw [if_neg hk]
      rw [lookup_cons_str, lookup_cons_str]
      by_cases hq : q = a1
      · rw [if_pos hq, if_pos hq]
      · rw [if_neg hq, if_neg hq]
        exact ih

lemma makedirs_eq_some (fs : FileSys) (d : String) (h : d ≠ "") :
    makedirs fs d =
      some { fs with dirs := if d ∈ fs.dirs then fs.dirs else fs.dirs ++ [d] } := by
  simp [makedirs, h]

lemma makedirs_dbs (fs fs1 : FileSys) (d : String) (h : makedirs fs d = some fs1) :
    fs1.dbs = fs.dbs := by
  unfold makedirs at h
  by_cases hd : d = "" <;> simp [hd] at h
  rw [← h]

lemma makedirs_mem_dirs (fs fs1 : FileSys) (d : String) (h : makedirs fs d = some fs1) :
    d ∈ fs1.dirs := by
  unfold makedirs at h
  by_cases hd : d = "" <;> simp [hd] at h
  rw [← h]
  by_cases hm : d ∈ fs.dirs <;> simp [hm]

lemma updateDb_dirs (fs : FileSys) (p : String) (db : Database) :
    (updateDb fs p db).dirs = fs.dirs := rfl

lemma updateDb_lookup_self (fs : FileSys) (p : String) (db : Database) :
    (updateDb fs p db).dbs.lookup p = some db := by
  unfold updateDb
  by_cases h : (fs.dbs.lookup p).isSome
  · obtain ⟨v, hv⟩ := Option.isSome_iff_exists.mp h
    simp only [h, if_pos]
    rw [lookup_replace, hv]
    rfl
  · simp only [h, Bool.false_eq_true, if_neg, not_false_iff]
    rw [lookup_append_of_none _ _ _ (Option.not_isSome_iff_eq_none.mp h)]
    rw [lookup_cons_str, if_pos rfl]

lemma updateDb_lookup_ne (fs : FileSys) (p q : String) (db : Database) (h : q ≠ p) :
    (updateDb fs p db).dbs.lookup q = fs.dbs.lookup q := by
  unfold updateDb
  by_cases hs : (fs.dbs.lookup p).isSome
  · simp only [hs, if_pos]
    exact lookup_replace_ne _ _ _ _ h
  · simp only [hs, Bool.false_eq_true, if_neg, not_false_iff]
    cases hq : fs.dbs.lookup q with
    | some v => exact lookup_append_of_some _ _ _ _ hq
    | none =>
      rw [lookup_append_of_none _ _ _ hq, lookup_cons_str, if_neg h]
      rfl

lemma create_lookup_self (db : Database) (n : String) (sch : List (String × String)) :
    (createTableIfNotExists db n sch).tables.lookup n =
      some ((db.tables.lookup n).getD ⟨sch, []⟩) := by
  unfold createTableIfNotExists
  cases h : db.tables.lookup n with
  | some t => simp [h]
  | none =>
    simp only [h]
    rw [lookup_append_of_none _ _ _ h, lookup_cons_str, if_pos rfl]
    rfl

lemma create_lookup_ne (db : Database) (n m : String) (sch : List (String × String))
    (h : m ≠ n) :
    (createTableIfNotExists db n sch).tables.lookup m = db.tables.lookup m := by
  unfold createTableIfNotExists
  cases hn : db.tables.lookup n with
  | some t => rfl
  | none =>
    cases hm : db.tables.lookup m with
    | some v => exact lookup_append_of_some _ _ _ _ hm
    | none =>
      rw [lookup_append_of_none _ _ _ hm, lookup_cons_str, if_neg h]
      rfl

lemma setTable_lookup_self (db : Database) (n : String) (t : Table)
    (h : (db.tables.lookup n).isSome) :
    (db.setTable n t).tables.lookup n = some t := by
  obtain ⟨v, hv⟩ := Option.isSome_iff_exists.mp h
  unfold Database.setTable
  rw [lookup_replace, hv]
  rfl

lemma setTable_lookup_ne (db : Database) (n m : String) (t : Table) (h : m ≠ n) :
    (db.setTable n t).tables.lookup m = db.tables.lookup m :=
  lookup_replace_ne _ _ _ _ h

lemma storeRows_cons (sch : List (String × String)) (r : List Value)
    (rows : List (List Value)) :
    storeRows sch (r :: rows) =
      (storeRow sch r).bind fun r' =>
        (storeRows sch rows).bind fun rs' => some (r' :: rs') := rfl

lemma storeRows_length (sch : List (String × String)) (rows rs : List (List Value))
    (h : storeRows sch rows = some rs) : rs.length = rows.length := by
  induction rows generalizing rs with
  | nil =>
    simp [storeRows] at h
    simp [← h]
  | cons r rows ih =>
    rw [storeRows_cons] at h
    simp only [Option.bind_eq_some, Option.some.injEq] at h
    obtain ⟨r', hr', rs', hrs', rfl⟩ := h
    simp [ih rs' hrs']

/-- Value equality up to the time-of-day component of a date, the relation
under which written rows are compared with read-back rows. -/
def valSim (v w : Value) : Bool :=
  match v, w with
  | Value.vDate d _, Value.vDate e _ => decide (d = e)
  | v, w => decide (v = w)

/-- Field-by-field row equality, dates compared ignoring time-of-day. -/
def rowSim : List Value → List Value → Bool
  | [], [] => true
  | a :: as, b :: bs => valSim a b && rowSim as bs
  | _, _ => false

/-- Lift of `rowSim` to row lists. -/
def rowsSim : List (List Value) → List (List Value) → Bool
  | [], [] => true
  | a :: as, b :: bs => rowSim a b && rowsSim as bs
  | _, _ => false

lemma storeValue_sim (v v' : Value) (ty : String) (h : storeValue v ty = some v') :
    valSim v' v = true := by
  unfold storeValue at h
  split at h
  all_goals try (injection h with h2; subst h2; simp [valSim])
  exact Option.noConfusion h

lemma storeRow_sim (sch : List (String × String)) (vs vs' : List Value)
    (h : storeRow sch vs = some vs') : rowSim vs' vs = true := by
  induction sch generalizing vs vs' with
  | nil =>
    cases vs with
    | nil =>
      have h2 : ([] : List Value) = vs' := Option.some.inj h
      subst h2
      rfl
    | cons v vs => exact Option.noConfusion h
  | cons c sch ih =>
    obtain ⟨nm, ty⟩ := c
    cases vs with
    | nil => exact Option.noConfusion h
    | cons v vs =>
      have hc : storeRow ((nm, ty) :: sch) (v :: vs) =
          (storeValue v ty).bind fun v' =>
            (storeRow sch vs).bind fun vs' => some (v' :: vs') := rfl
      rw [hc] at h
      simp only [Option.bind_eq_some, Option.some.injEq] at h
      obtain ⟨w, hw, ws, hws, rfl⟩ := h
      simp [rowSim, storeValue_sim v w ty hw, ih vs ws hws]

lemma storeRows_sim (sch : List (String × String)) (rows rs : List (List Value))
    (h : storeRows sch rows = some rs) : rowsSim rs rows = true := by
  induction rows generalizing rs with
  | nil =>
    have h2 : ([] : List (List Value)) = rs := Option.some.inj h
    subst h2
    rfl
  | cons r rows ih =>
    rw [storeRows_cons] at h
    simp only [Option.bind_eq_some, Option.some.injEq] at h
    obtain ⟨r', hr', rs', hrs', rfl⟩ := h
    simp [rowsSim, storeRow_sim sch r r' hr', ih rs' hrs']

lemma ingest_of_makedirs_none (fs : FileSys) (df : DataFrame) (p tn : String)
    (h : makedirs fs (dirname p) = none) :
    ingest_to_duckdb fs df p tn = ⟨fs, false, false, some "FileNotFoundError"⟩ := by
  unfold ingest_to_duckdb
  rw [h]

lemma ingest_of_makedirs_some (fs fs1 : FileSys) (df : DataFrame) (p tn : String)
    (hmk : makedirs fs (dirname p) = some fs1) :
    ingest_to_duckdb fs df p tn =
      (match (createTableIfNotExists (lookupDb fs1 p) tn stockSchema).tables.lookup tn with
       | none =>
         ⟨updateDb fs1 p (createTableIfNotExists (lookupDb fs1 p) tn stockSchema),
          true, false, some "CatalogError"⟩
       | some t =>
         match insertRows t df.rows with
         | none =>
           ⟨updateDb fs1 p (createTableIfNotExists (lookupDb fs1 p) tn stockSchema),
            true, false, some "ConversionError"⟩
         | some t' =>
           ⟨updateDb fs1 p
              ((createTableIfNotExists (lookupDb fs1 p) tn stockSchema).setTable tn t'),
            true, true, none⟩) := by
  unfold ingest_to_duckdb
  rw [hmk]

lemma insertRows_of_storeRows_some (t : Table) (rows rs : List (List Value))
    (h : storeRows t.schema rows = some rs) :
    insertRows t rows = some { t with rows := t.rows ++ rs } := by
  unfold insertRows
  rw [h]
  rfl

lemma insertRows_of_storeRows_none (t : Table) (rows : List (List Value))
    (h : storeRows t.schema rows = none) : insertRows t rows = none := by
  unfold insertRows
  rw [h]
  rfl

/-- Anatomy of a successful call: the success branch determines each
intermediate state. -/
lemma ingest_success_anatomy (fs : FileSys) (df : DataFrame) (p tn : String)
    (h : (ingest_to_duckdb fs df p tn).err = none) :
    ∃ fs1 t rs,
      makedirs fs (dirname p) = some fs1 ∧
      (createTableIfNotExists (lookupDb fs1 p) tn stockSchema).tables.lookup tn = some t ∧
      storeRows t.schema df.rows = some rs ∧
      ingest_to_duckdb fs df p tn =
        ⟨updateDb fs1 p
           ((createTableIfNotExists (lookupDb fs1 p) tn stockSchema).setTable tn
             { t with rows := t.rows ++ rs }),
         true, true, none⟩ := by
  cases hmk : makedirs fs (dirname p) with
  | none =>
    rw [ingest_of_makedirs_none fs df p tn hmk] at h
    exact Option.noConfusion h
  | some fs1 =>
    rw [ingest_of_makedirs_some fs fs1 df p tn hmk] at h ⊢
    cases hlk : (createTableIfNotExists (lookupDb fs1 p) tn stockSchema).tables.lookup tn with
    | none =>
      simp only [hlk] at h
      exact Option.noConfusion h
    | some t =>
      simp only [hlk] at h ⊢
      cases hst : storeRows t.schema df.rows with
      | none =>
        simp only [insertRows_of_storeRows_none t df.rows hst] at h
        exact Option.noConfusion h
      | some rs =>
        simp only [insertRows_of_storeRows_some t df.rows rs hst] at h ⊢
        exact ⟨fs1, t, rs, rfl, hlk, hst, rfl⟩

lemma lookupDb_updateDb_self (fs : FileSys) (p : String) (db : Database) :
    lookupDb (updateDb fs p db) p = db := by
  unfold lookupDb
  rw [updateDb_lookup_self]
  rfl

/-- Post-state of a successful call: the destination table gained exactly
the stored rows at the end, while other tables and other database files are
untouched. -/
lemma ingest_success_state (fs : FileSys) (df : DataFrame) (p tn : String)
    (h : (ingest_to_duckdb fs df p tn).err = none) :
    ∃ rs,
      storeRows (((lookupDb fs p).tables.lookup tn).getD
        (⟨stockSchema, []⟩ : Table)).schema df.rows = some rs ∧
      readTable (ingest_to_duckdb fs df p tn).fs p tn = readTable fs p tn ++ rs ∧
      (lookupDb (ingest_to_duckdb fs df p tn).fs p).tables.lookup tn =
        some ⟨(((lookupDb fs p).tables.lookup tn).getD
          (⟨stockSchema, []⟩ : Table)).schema, readTable fs p tn ++ rs⟩ ∧
      (∀ m, m ≠ tn → (lookupDb (ingest_to_duckdb fs df p tn).fs p).tables.lookup m
          = (lookupDb fs p).tables.lookup m) ∧
      (∀ q, q ≠ p → (ingest_to_duckdb fs df p tn).fs.dbs.lookup q = fs.dbs.lookup q) := by
  obtain ⟨fs1, t, rs, hmk, hlk, hst, heq⟩ := ingest_success_anatomy fs df p tn h
  have hdbs : fs1.dbs = fs.dbs := makedirs_dbs _ _ _ hmk
  have hdb0 : lookupDb fs1 p = lookupDb fs p := by
    unfold lookupDb
    rw [hdbs]
  have hT : t = ((lookupDb fs p).tables.lookup tn).getD ⟨stockSchema, []⟩ := by
    have hc := create_lookup_self (lookupDb fs1 p) tn stockSchema
    rw [hlk, hdb0] at hc
    exact Option.some.inj hc
  have hrows : t.rows = readTable fs p tn := by
    unfold readTable
    cases hu : (lookupDb fs p).tables.lookup tn with
    | some u =>
      rw [hu] at hT
      rw [hT]
      rfl
    | none =>
      rw [hu] at hT
      rw [hT]
      rfl
  have hsomeT : ((createTableIfNotExists (lookupDb fs1 p) tn stockSchema).tables.lookup tn).isSome := by
    rw [hlk]
    rfl
  refine ⟨rs, ?_, ?_, ?_, ?_, ?_⟩
  · rw [← hT]
    exact hst
  · rw [heq]
    show readTable (updateDb fs1 p _) p tn = _
    unfold readTable
    rw [lookupDb_updateDb_self]
    rw [setTable_lookup_self _ _ _ hsomeT]
    simp only [hrows]
    rfl
  · rw [heq]
    show (lookupDb (updateDb fs1 p _) p).tables.lookup tn = _
    rw [lookupDb_updateDb_self]
    rw [setTable_lookup_self _ _ _ hsomeT]
    rw [← hT, hrows]
  · intro m hm
    rw [heq]
    show (lookupDb (updateDb fs1 p _) p).tables.lookup m = _
    rw [lookupDb_updateDb_self]
    rw [setTable_lookup_ne _ _ _ _ hm]
    rw [create_lookup_ne _ _ _ _ hm]
    unfold lookupDb
    rw [hdbs]
  · intro q hq
    rw [heq]
    show (updateDb fs1 p _).dbs.lookup q = _
    rw [updateDb_lookup_ne _ _ _ _ hq]
    rw [hdbs]

lemma dirname_ne_empty_of_success (fs : FileSys) (df : DataFrame) (p tn : String)
    (h : (ingest_to_duckdb fs df p tn).err = none) : dirname p ≠ "" := by
  intro hd
  have hmk : makedirs fs (dirname p) = none := by
    unfold makedirs
    rw [if_pos hd]
  rw [ingest_of_makedirs_none fs df p tn hmk] at h
  exact Option.noConfusion h

lemma rowCount_eq_length (fs : FileSys) (p tn : String) :
    rowCount fs p tn = (readTable fs p tn).length := by
  unfold rowCount readTable
  cases (lookupDb fs p).tables.lookup tn <;> rfl

/-- A call against a destination whose table already exists and whose rows
coerce appends the stored block. -/
lemma ingest_on_existing (fs : FileSys) (df : DataFrame) (p tn : String) (tb : Table)
    (rs : List (List Value)) (hd : dirname p ≠ "")
    (htb : (lookupDb fs p).tables.lookup tn = some tb)
    (hst : storeRows tb.schema df.rows = some rs) :
    (ingest_to_duckdb fs df p tn).err = none ∧
      readTable (ingest_to_duckdb fs df p tn).fs p tn = tb.rows ++ rs := by
  obtain ⟨fs1, hmk⟩ : ∃ fs1, makedirs fs (dirname p) = some fs1 :=
    ⟨_, makedirs_eq_some fs _ hd⟩
  have hdbs := makedirs_dbs _ _ _ hmk
  have hdb : lookupDb fs1 p = lookupDb fs p := by
    unfold lookupDb
    rw [hdbs]
  have hlk2 : (createTableIfNotExists (lookupDb fs1 p) tn stockSchema).tables.lookup tn =
      some tb := by
    rw [create_lookup_self, hdb, htb]
    rfl
  rw [ingest_of_makedirs_some fs fs1 df p tn hmk]
  simp only [hlk2, insertRows_of_storeRows_some tb df.rows rs hst]
  refine ⟨trivial, ?_⟩
  unfold readTable
  rw [lookupDb_updateDb_self]
  rw [setTable_lookup_self _ _ _ (by rw [hlk2]; rfl)]

/-- C2: `ingest` is append-only with no deduplication — against a fresh
destination file, a second call with the same rows succeeds and leaves the
destination table with exactly twice the row count a single call
produces. -/
theorem C2_ingest_twice_doubles (fs : FileSys) (df : DataFrame) (p tn : String)
    (hfresh : fs.dbs.lookup p = none)
    (h1 : (ingest_to_duckdb fs df p tn).err = none) :
    (ingest_to_duckdb (ingest_to_duckdb fs df p tn).fs df p tn).err = none ∧
      rowCount (ingest_to_duckdb (ingest_to_duckdb fs df p tn).fs df p tn).fs p tn =
        2 * rowCount (ingest_to_duckdb fs df p tn).fs p tn := by
  have hnil : (lookupDb fs p).tables.lookup tn = none := by
    unfold lookupDb
    rw [hfresh]
    rfl
  have hempty : readTable fs p tn = [] := by
    unfold readTable
    rw [hnil]
  obtain ⟨rs, hst, hread, htbl, _, _⟩ := ingest_success_state fs df p tn h1
  rw [hnil] at hst htbl
  rw [hempty] at hread htbl
  simp only [Option.getD_none, List.nil_append] at hst hread htbl
  have hd := dirname_ne_empty_of_success fs df p tn h1
  obtain ⟨h2, hread2⟩ :=
    ingest_on_existing (ingest_to_duckdb fs df p tn).fs df p tn ⟨stockSchema, rs⟩ rs hd htbl hst
  refine ⟨h2, ?_⟩
  rw [rowCount_eq_length, rowCount_eq_length, hread2, hread]
  simp [two_mul]

/-- C7: round-trip — rows written by a successful `ingest` call read back
from the destination table as a block appended after the pre-existing rows,
equal field-by-field to the input rows up to the time-of-day component of
the date. -/
theorem C7_roundtrip (fs : FileSys) (df : DataFrame) (p tn : String)
    (h : (ingest_to_duckdb fs df p tn).err = none) :
    ∃ stored,
      readTable (ingest_to_duckdb fs df p tn).fs p tn = readTable fs p tn ++ stored ∧
      rowsSim stored df.rows = true := by
  obtain ⟨rs, hst, hread, _, _, _⟩ := ingest_success_state fs df p tn h
  exact ⟨rs, hread, storeRows_sim _ _ _ hst⟩

/-- C10: frame property — a successful `ingest` call grows the destination
table by exactly the input row count, leaves its pre-existing rows in place,
and does not touch other tables of the database or other database files. -/
theorem C10_frame (fs : FileSys) (df : DataFrame) (p tn : String)
    (h : (ingest_to_duckdb fs df p tn).err = none) :
    rowCount (ingest_to_duckdb fs df p tn).fs p tn = rowCount fs p tn + df.rows.length ∧
      (∃ stored, stored.length = df.rows.length ∧
        readTable (ingest_to_duckdb fs df p tn).fs p tn = readTable fs p tn ++ stored) ∧
      (∀ m, m ≠ tn → (lookupDb (ingest_to_duckdb fs df p tn).fs p).tables.lookup m
          = (lookupDb fs p).tables.lookup m) ∧
      (∀ q, q ≠ p → (ingest_to_duckdb fs df p tn).fs.dbs.lookup q = fs.dbs.lookup q) := by
  obtain ⟨rs, hst, hread, _, htabs, hdbs⟩ := ingest_success_state fs df p tn h
  have hlen := storeRows_length _ _ _ hst
  refine ⟨?_, ⟨rs, hlen, hread⟩, htabs, hdbs⟩
  rw [rowCount_eq_length, rowCount_eq_length, hread]
  simp [hlen]

/-- Empty world: no directories, no database files. -/
def fs0 : FileSys := ⟨[], []⟩

/-- A well-typed one-row frame in the `fetch_data` output schema; the date
carries a nonzero time-of-day to exercise the DATE truncation. -/
def dfEx : DataFrame :=
  ⟨schemaNames,
   [[Value.vDate 20120 540, Value.vFloat 100, Value.vFloat 101, Value.vFloat 99,
     Value.vFloat 100, Value.vFloat 98, Value.vInt 1000000, Value.vStr "SPY"]]⟩

theorem C2_ingest_twice_doubles_witness :
    (ingest_to_duckdb
        (ingest_to_duckdb fs0 dfEx "data/financial.duckdb" "stock_prices").fs
        dfEx "data/financial.duckdb" "stock_prices").err = none ∧
      rowCount (ingest_to_duckdb
        (ingest_to_duckdb fs0 dfEx "data/financial.duckdb" "stock_prices").fs
        dfEx "data/financial.duckdb" "stock_prices").fs "data/financial.duckdb" "stock_prices" =
        2 * rowCount (ingest_to_duckdb fs0 dfEx "data/financial.duckdb" "stock_prices").fs
          "data/financial.duckdb" "stock_prices" :=
  C2_ingest_twice_doubles fs0 dfEx "data/financial.duckdb" "stock_prices" rfl rfl

theorem C7_roundtrip_witness :
    ∃ stored,
      readTable (ingest_to_duckdb fs0 dfEx "data/financial.duckdb" "stock_prices").fs
          "data/financial.duckdb" "stock_prices" =
        readTable fs0 "data/financial.duckdb" "stock_prices" ++ stored ∧
      rowsSim stored dfEx.rows = true :=
  C7_roundtrip fs0 dfEx "data/financial.duckdb" "stock_prices" rfl

theorem C10_frame_witness :
    rowCount (ingest_to_duckdb fs0 dfEx "data/financial.duckdb" "stock_prices").fs
        "data/financial.duckdb" "stock_prices" =
      rowCount fs0 "data/financial.duckdb" "stock_prices" + dfEx.rows.length ∧
      (∃ stored, stored.length = dfEx.rows.length ∧
        readTable (ingest_to_duckdb fs0 dfEx "data/financial.duckdb" "stock_prices").fs
            "data/financial.duckdb" "stock_prices" =
          readTable fs0 "data/financial.duckdb" "stock_prices" ++ stored) ∧
      (∀ m, m ≠ "stock_prices" →
        (lookupDb (ingest_to_duckdb fs0 dfEx "data/financial.duckdb" "stock_prices").fs
            "data/financial.duckdb").tables.lookup m
          = (lookupDb fs0 "data/financial.duckdb").tables.lookup m) ∧
      (∀ q, q ≠ "data/financial.duckdb" →
        (ingest_to_duckdb fs0 dfEx "data/financial.duckdb" "stock_prices").fs.dbs.lookup q
          = fs0.dbs.lookup q) :=
  C10_frame fs0 dfEx "data/financial.duckdb" "stock_prices" rfl

/-- A frame whose single row cannot be stored against the 8-column
destination schema (wrong arity), making the INSERT statement fail. -/
def dfBad : DataFrame := ⟨["x"], [[Value.vInt 0]]⟩

/-- C8 counterexample: the source has no try/finally, so when the INSERT
fails the error propagates with the connection opened but never closed —
refuting the claim that the handle is closed whether or not the insert
fails. -/
theorem C8_close_counterexample :
    (ingest_to_duckdb fs0 dfBad "data/financial.duckdb" "stock_prices").opened = true ∧
      (ingest_to_duckdb fs0 dfBad "data/financial.duckdb" "stock_prices").err =
        some "ConversionError" ∧
      (ingest_to_duckdb fs0 dfBad "data/financial.duckdb" "stock_prices").closed = false :=
  ⟨rfl, rfl, rfl⟩

/-- C8 amended: `con.close()` runs exactly when the call raises no error —
after a successful insert the handle is closed, while any failure
(including an insert failure after the connection was opened) propagates
without closing it. -/
theorem C8_closed_iff_no_error (fs : FileSys) (df : DataFrame) (p tn : String) :
    (ingest_to_duckdb fs df p tn).closed = true ↔
      (ingest_to_duckdb fs df p tn).err = none := by
  by_cases hd : dirname p = ""
  · have hmk : makedirs fs (dirname p) = none := by
      unfold makedirs
      rw [if_pos hd]
    rw [ingest_of_makedirs_none fs df p tn hmk]
    simp
  · obtain ⟨fs1, hmk⟩ : ∃ fs1, makedirs fs (dirname p) = some fs1 :=
      ⟨_, makedirs_eq_some fs _ hd⟩
    rw [ingest_of_makedirs_some fs fs1 df p tn hmk]
    simp only [create_lookup_self]
    cases hins : insertRows (((lookupDb fs1 p).tables.lookup tn).getD ⟨stockSchema, []⟩)
        df.rows with
    | none => simp [hins]
    | some t' => simp [hins]

/-- C9 counterexample: for a bare filename, `os.path.dirname` yields the
empty string and `os.makedirs("")` raises `FileNotFoundError` even with
`exist_ok=True`, so `ingest` fails before the database file is ever
opened — refuting the bare-filename part of the claim. -/
theorem C9_bare_filename_counterexample :
    (ingest_to_duckdb fs0 dfEx "financial.duckdb" "stock_prices").err =
        some "FileNotFoundError" ∧
      (ingest_to_duckdb fs0 dfEx "financial.duckdb" "stock_prices").opened = false ∧
      (ingest_to_duckdb fs0 dfEx "financial.duckdb" "stock_prices").fs = fs0 :=
  ⟨rfl, rfl, rfl⟩

/-- C9 amended: for destination paths with a nonempty directory component,
the parent directory is created (if absent) before the database is opened,
and the database file is then opened or created. -/
theorem C9_parent_dir_created (fs : FileSys) (df : DataFrame) (p tn : String)
    (hd : dirname p ≠ "") :
    dirname p ∈ (ingest_to_duckdb fs df p tn).fs.dirs ∧
      (ingest_to_duckdb fs df p tn).opened = true ∧
      ((ingest_to_duckdb fs df p tn).fs.dbs.lookup p).isSome = true := by
  obtain ⟨fs1, hmk⟩ : ∃ fs1, makedirs fs (dirname p) = some fs1 :=
    ⟨_, makedirs_eq_some fs _ hd⟩
  have hmem := makedirs_mem_dirs _ _ _ hmk
  rw [ingest_of_makedirs_some fs fs1 df p tn hmk]
  simp only [create_lookup_self]
  cases hins : insertRows (((lookupDb fs1 p).tables.lookup tn).getD ⟨stockSchema, []⟩)
      df.rows with
  | none =>
    simp only [hins]
    refine ⟨?_, trivial, ?_⟩
    · rw [updateDb_dirs]
      exact hmem
    · rw [updateDb_lookup_self]
      rfl
  | some t' =>
    simp only [hins]
    refine ⟨?_, trivial, ?_⟩
    · rw [updateDb_dirs]
      exact hmem
    · rw [updateDb_lookup_self]
      rfl

theorem C9_parent_dir_created_witness :
    dirname "data/financial.duckdb" ∈
        (ingest_to_duckdb fs0 dfEx "data/financial.duckdb" "stock_prices").fs.dirs ∧
      (ingest_to_duckdb fs0 dfEx "data/financial.duckdb" "stock_prices").opened = true ∧
      ((ingest_to_duckdb fs0 dfEx "data/financial.duckdb" "stock_prices").fs.dbs.lookup
          "data/financial.duckdb").isSome = true :=
  C9_parent_dir_created fs0 dfEx "data/financial.duckdb" "stock_prices" (by decide)

lemma select_some (df : DataFrame) (names : List String) (out : DataFrame)
    (h : df.select names = some out) :
    out.cols = names ∧ ∀ r ∈ out.rows, r.length = names.length := by
  unfold DataFrame.select at h
  by_cases hc : (names.all fun n => (idxOf n df.cols).isSome) = true
  · rw [if_pos hc] at h
    obtain rfl := Option.some.inj h
    refine ⟨rfl, ?_⟩
    intro r hr
    obtain ⟨r0, _, rfl⟩ := List.mem_map.mp hr
    exact List.length_map names _
  · rw [if_neg hc] at h
    exact Option.noConfusion h

/-- C1: whenever `fetch_data` returns, the result has exactly the 8 columns
of the destination schema, in schema order, and every row has exactly 8
fields — the positional correspondence `ingest_to_duckdb`'s
`INSERT ... SELECT *` relies on. -/
theorem C1_fetch_schema (raw : RawFrame) (t : String) (out : DataFrame)
    (h : fetch_data raw t = some out) :
    out.cols = stockSchema.map Prod.fst ∧
      ∀ r ∈ out.rows, r.length = stockSchema.length := by
  unfold fetch_data at h
  simp only [Option.bind_eq_some] at h
  obtain ⟨df1, _, h2⟩ := h
  obtain ⟨hcols, hlen⟩ := select_some _ _ _ h2
  exact ⟨hcols, hlen⟩

/-- One-row provider frame with the adjusted-close column present. -/
def rawEx : RawFrame :=
  ⟨"Date", [Value.vDate 19723 0], yfCols,
   [[Value.vFloat 185, Value.vFloat 186, Value.vFloat 184, Value.vFloat 185,
     Value.vFloat 183, Value.vInt 50000000]]⟩

/-- The value of `fetch_data rawEx "AAPL"` computed. -/
def fetchedEx : DataFrame :=
  ⟨schemaNames,
   [[Value.vDate 19723 0, Value.vFloat 185, Value.vFloat 186, Value.vFloat 184,
     Value.vFloat 185, Value.vFloat 183, Value.vInt 50000000, Value.vStr "AAPL"]]⟩

theorem C1_fetch_schema_witness :
    fetchedEx.cols = stockSchema.map Prod.fst ∧
      ∀ r ∈ fetchedEx.rows, r.length = stockSchema.length :=
  C1_fetch_schema rawEx "AAPL" fetchedEx rfl

/-- Modelled from the spec: the provider (`yf.download`, external to the
repository) returns a table indexed by date with provider-native column
names — the six OHLCV columns with `Adj Close` when present, five without
it — and one row per index entry. -/
def providerShaped (raw : RawFrame) : Prop :=
  raw.indexName = "Date" ∧ raw.index.length = raw.rows.length ∧
    ((raw.cols = yfCols ∧ ∀ r ∈ raw.rows, r.length = 6) ∨
     (raw.cols = yfColsNoAdj ∧ ∀ r ∈ raw.rows, r.length = 5))

lemma raw_eta (raw : RawFrame) (cs : List String) (hn : raw.indexName = "Date")
    (hc : raw.cols = cs) : raw = ⟨"Date", raw.index, cs, raw.rows⟩ := by
  cases raw
  simp_all

lemma fetch_out_withAdj (raw : RawFrame) (t : String) (out : DataFrame)
    (hn : raw.indexName = "Date") (hc : raw.cols = yfCols)
    (h6 : ∀ r ∈ raw.rows, r.length = 6) (h : fetch_data raw t = some out) :
    out = ⟨schemaNames,
      List.zipWith (fun d r => d :: (r ++ [Value.vStr t])) raw.index raw.rows⟩ := by
  rw [raw_eta raw yfCols hn hc] at h
  rw [fetch_data_withAdj raw.index raw.rows t h6] at h
  exact (Option.some.inj h).symm

lemma fetch_out_noAdj (raw : RawFrame) (t : String) (out : DataFrame)
    (hn : raw.indexName = "Date") (hc : raw.cols = yfColsNoAdj)
    (h5 : ∀ r ∈ raw.rows, r.length = 5) (h : fetch_data raw t = some out) :
    out = ⟨schemaNames,
      List.zipWith (fun d r =>
        d :: (r.take 4 ++ [(r.get? 3).getD (Value.vStr "")] ++ (r.drop 4 ++ [Value.vStr t])))
        raw.index raw.rows⟩ := by
  rw [raw_eta raw yfColsNoAdj hn hc] at h
  rw [fetch_data_noAdj raw.index raw.rows t h5] at h
  exact (Option.some.inj h).symm

lemma exists_of_mem_zipWith {α β γ : Type} {f : α → β → γ} {c : γ} {as : List α}
    {bs : List β} (h : c ∈ List.zipWith f as bs) :
    ∃ a, a ∈ as ∧ ∃ b, b ∈ bs ∧ c = f a b := by
  induction as generalizing bs with
  | nil => simp at h
  | cons a as ih =>
    cases bs with
    | nil => simp at h
    | cons b bs =>
      rw [List.zipWith_cons_cons] at h
      rcases List.mem_cons.mp h with h | h
      · exact ⟨a, by simp, b, by simp, h⟩
      · obtain ⟨a', ha', b', hb', hc⟩ := ih h
        exact ⟨a', by simp [ha'], b', by simp [hb'], hc⟩

lemma map_zipWith_eq_zipWith {α β γ δ : Type} (f : α → β → γ) (g : γ → δ)
    (g' : α → β → δ) (ds : List α) (rows : List β)
    (h : ∀ d, ∀ r ∈ rows, g (f d r) = g' d r) :
    (List.zipWith f ds rows).map g = List.zipWith g' ds rows := by
  induction ds generalizing rows with
  | nil => simp
  | cons d ds ih =>
    cases rows with
    | nil => simp
    | cons r rows =>
      simp only [List.zipWith_cons_cons, List.map_cons]
      rw [ih rows (fun d r hr => h d r (by simp [hr])), h d r (by simp)]

lemma zipWith_const_right {α β δ : Type} (k : β → δ) (ds : List α) (rows : List β)
    (h : ds.length = rows.length) :
    List.zipWith (fun _ r => k r) ds rows = rows.map k := by
  induction ds generalizing rows with
  | nil =>
    cases rows with
    | nil => rfl
    | cons r rows => exact absurd h (by simp)
  | cons d ds ih =>
    cases rows with
    | nil => exact absurd h (by simp)
    | cons r rows =>
      simp only [List.zipWith_cons_cons, List.map_cons]
      rw [ih rows (by simpa using h)]

lemma zipWith_const_left {α β δ : Type} (k : α → δ) (ds : List α) (rows : List β)
    (h : ds.length = rows.length) :
    List.zipWith (fun d _ => k d) ds rows = ds.map k := by
  induction ds generalizing rows with
  | nil => rfl
  | cons d ds ih =>
    cases rows with
    | nil => exact absurd h (by simp)
    | cons r rows =>
      simp only [List.zipWith_cons_cons, List.map_cons]
      rw [ih rows (by simpa using h)]

/-- The value of `fetch_data rawEx "aapl"`: the ticker cell is the literal
lowercase string. -/
def fetchedLower : DataFrame :=
  ⟨schemaNames,
   [[Value.vDate 19723 0, Value.vFloat 185, Value.vFloat 186, Value.vFloat 184,
     Value.vFloat 185, Value.vFloat 183, Value.vInt 50000000, Value.vStr "aapl"]]⟩

/-- C4 counterexample: `fetch_data` stores the requested symbol verbatim
(`df['ticker'] = ticker`), so for the lowercase request `"aapl"` the stored
ticker is `"aapl"`, not the uppercase symbol `"AAPL"` the claim
specifies. -/
theorem C4_ticker_counterexample :
    fetch_data rawEx "aapl" = some fetchedLower ∧
      getCell fetchedLower.cols (fetchedLower.rows.getD 0 []) "ticker" =
        some (Value.vStr "aapl") ∧
      Value.vStr "aapl" ≠ Value.vStr "AAPL" :=
  ⟨rfl, rfl, by decide⟩

/-- C4 amended: every row returned by `fetch_data` carries the requested
symbol verbatim (case preserved, hence equal to it uppercase-insensitively);
the symbol is not uppercased. -/
theorem C4_ticker_literal (raw : RawFrame) (t : String) (out : DataFrame)
    (hp : providerShaped raw) (h : fetch_data raw t = some out) :
    ∀ r ∈ out.rows, getCell out.cols r "ticker" = some (Value.vStr t) := by
  obtain ⟨hn, hlen, hcase⟩ := hp
  rcases hcase with ⟨hc, h6⟩ | ⟨hc, h5⟩
  · obtain rfl := fetch_out_withAdj raw t out hn hc h6 h
    intro r hr
    obtain ⟨d, _, r0, hr0, rfl⟩ := exists_of_mem_zipWith hr
    obtain ⟨a, b, c, d', e, f, rfl⟩ := length_eq_six r0 (h6 r0 hr0)
    rfl
  · obtain rfl := fetch_out_noAdj raw t out hn hc h5 h
    intro r hr
    obtain ⟨d, _, r0, hr0, rfl⟩ := exists_of_mem_zipWith hr
    obtain ⟨a, b, c, d', e, rfl⟩ := length_eq_five r0 (h5 r0 hr0)
    rfl

theorem C4_ticker_literal_witness :
    getCell fetchedLower.cols (fetchedLower.rows.getD 0 []) "ticker" =
      some (Value.vStr "aapl") :=
  C4_ticker_literal rawEx "aapl" fetchedLower
    ⟨rfl, by decide, Or.inl ⟨rfl, by decide⟩⟩ rfl
    (fetchedLower.rows.getD 0 []) (by decide)

/-- C5: the `adj_close` column of the `fetch_data` output is the provider's
adjusted-close column when that column is present (position 4 of the
provider row), and a copy of the raw close (position 3) — equal row by row
to the output's own `close` field — when the provider omits it. -/
theorem C5_adj_close (raw : RawFrame) (t : String) (out : DataFrame)
    (hp : providerShaped raw) (h : fetch_data raw t = some out) :
    (raw.cols = yfCols →
      out.rows.map (fun r => getCell out.cols r "adj_close") =
        raw.rows.map fun r => r.get? 4) ∧
    (raw.cols = yfColsNoAdj →
      (out.rows.map (fun r => getCell out.cols r "adj_close") =
        raw.rows.map fun r => r.get? 3) ∧
      ∀ r ∈ out.rows, getCell out.cols r "adj_close" = getCell out.cols r "close") := by
  obtain ⟨hn, hlen, hcase⟩ := hp
  constructor
  · intro hcA
    rcases hcase with ⟨hc, h6⟩ | ⟨hc, h5⟩
    · obtain rfl := fetch_out_withAdj raw t out hn hc h6 h
      show (List.zipWith _ raw.index raw.rows).map _ = _
      rw [map_zipWith_eq_zipWith _ _ (fun _ r => r.get? 4) raw.index raw.rows
        (fun d r hr => by
          obtain ⟨a, b, c, d', e, f, rfl⟩ := length_eq_six r (h6 r hr)
          rfl)]
      exact zipWith_const_right _ raw.index raw.rows hlen
    · exact absurd (hcA.symm.trans hc) (by decide)
  · intro hcB
    rcases hcase with ⟨hc, h6⟩ | ⟨hc, h5⟩
    · exact absurd (hcB.symm.trans hc) (by decide)
    · obtain rfl := fetch_out_noAdj raw t out hn hc h5 h
      constructor
      · show (List.zipWith _ raw.index raw.rows).map _ = _
        rw [map_zipWith_eq_zipWith _ _ (fun _ r => r.get? 3) raw.index raw.rows
          (fun d r hr => by
            obtain ⟨a, b, c, d', e, rfl⟩ := length_eq_five r (h5 r hr)
            rfl)]
        exact zipWith_const_right _ raw.index raw.rows hlen
      · intro r hr
        obtain ⟨d, _, r0, hr0, rfl⟩ := exists_of_mem_zipWith hr
        obtain ⟨a, b, c, d', e, rfl⟩ := length_eq_five r0 (h5 r0 hr0)
        rfl

theorem C5_adj_close_witness :
    (rawEx.cols = yfCols →
      fetchedEx.rows.map (fun r => getCell fetchedEx.cols r "adj_close") =
        rawEx.rows.map fun r => r.get? 4) ∧
    (rawEx.cols = yfColsNoAdj →
      (fetchedEx.rows.map (fun r => getCell fetchedEx.cols r "adj_close") =
        rawEx.rows.map fun r => r.get? 3) ∧
      ∀ r ∈ fetchedEx.rows,
        getCell fetchedEx.cols r "adj_close" = getCell fetchedEx.cols r "close") :=
  C5_adj_close rawEx "AAPL" fetchedEx ⟨rfl, by decide, Or.inl ⟨rfl, by decide⟩⟩ rfl

/-- Day ordinal of a date value (0 for non-dates). -/
def valueDay : Value → Nat
  | Value.vDate d _ => d
  | _ => 0

/-- Modelled from the spec: the provider guarantee that rows come back in
chronological ascending order with every date inside the half-open request
window `[startDay, endDay)` — `fetch_data` itself neither sorts nor
filters. -/
def providerDatesOk (raw : RawFrame) (startDay endDay : Nat) : Prop :=
  List.Chain' (fun a b => valueDay a ≤ valueDay b) raw.index ∧
    ∀ v ∈ raw.index, startDay ≤ valueDay v ∧ valueDay v < endDay

/-- C6: under the provider guarantee, the `date` fields of the rows
`fetch_data` returns are non-decreasing and lie within
`[startDay, endDay)` — the provider order is preserved unchanged. -/
theorem C6_dates_sorted_in_range (raw : RawFrame) (t : String) (out : DataFrame)
    (startDay endDay : Nat) (hp : providerShaped raw)
    (hdok : providerDatesOk raw startDay endDay) (h : fetch_data raw t = some out) :
    List.Chain' (fun a b => valueDay a ≤ valueDay b)
      (out.rows.map fun r => (getCell out.cols r "date").getD (Value.vStr "")) ∧
    ∀ v ∈ out.rows.map fun r => (getCell out.cols r "date").getD (Value.vStr ""),
      startDay ≤ valueDay v ∧ valueDay v < endDay := by
  obtain ⟨hn, hlen, hcase⟩ := hp
  have hdl : (out.rows.map fun r => (getCell out.cols r "date").getD (Value.vStr ""))
      = raw.index := by
    rcases hcase with ⟨hc, h6⟩ | ⟨hc, h5⟩
    · obtain rfl := fetch_out_withAdj raw t out hn hc h6 h
      show (List.zipWith _ raw.index raw.rows).map _ = _
      rw [map_zipWith_eq_zipWith _ _ (fun d _ => d) raw.index raw.rows
        (fun d r hr => by
          obtain ⟨a, b, c, d', e, f, rfl⟩ := length_eq_six r (h6 r hr)
          rfl)]
      rw [zipWith_const_left (fun d => d) raw.index raw.rows hlen]
      simp
    · obtain rfl := fetch_out_noAdj raw t out hn hc h5 h
      show (List.zipWith _ raw.index raw.rows).map _ = _
      rw [map_zipWith_eq_zipWith _ _ (fun d _ => d) raw.index raw.rows
        (fun d r hr => by
          obtain ⟨a, b, c, d', e, rfl⟩ := length_eq_five r (h5 r hr)
          rfl)]
      rw [zipWith_const_left (fun d => d) raw.index raw.rows hlen]
      simp
  rw [hdl]
  exact hdok

/-- Two-row provider frame with ascending dates inside `[19723, 19725)`. -/
def rawEx2 : RawFrame :=
  ⟨"Date", [Value.vDate 19723 0, Value.vDate 19724 0], yfCols,
   [[Value.vFloat 470, Value.vFloat 472, Value.vFloat 469, Value.vFloat 471,
     Value.vFloat 470, Value.vInt 70000000],
    [Value.vFloat 471, Value.vFloat 473, Value.vFloat 470, Value.vFloat 472,
     Value.vFloat 471, Value.vInt 65000000]]⟩

/-- The value of `fetch_data rawEx2 "SPY"` computed. -/
def fetchedEx2 : DataFrame :=
  ⟨schemaNames,
   [[Value.vDate 19723 0, Value.vFloat 470, Value.vFloat 472, Value.vFloat 469,
     Value.vFloat 471, Value.vFloat 470, Value.vInt 70000000, Value.vStr "SPY"],
    [Value.vDate 19724 0, Value.vFloat 471, Value.vFloat 473, Value.vFloat 470,
     Value.vFloat 472, Value.vFloat 471, Value.vInt 65000000, Value.vStr "SPY"]]⟩

theorem C6_dates_sorted_in_range_witness :
    List.Chain' (fun a b => valueDay a ≤ valueDay b)
      (fetchedEx2.rows.map fun r => (getCell fetchedEx2.cols r "date").getD (Value.vStr "")) ∧
    ∀ v ∈ fetchedEx2.rows.map fun r => (getCell fetchedEx2.cols r "date").getD (Value.vStr ""),
      19723 ≤ valueDay v ∧ valueDay v < 19725 :=
  C6_dates_sorted_in_range rawEx2 "SPY" fetchedEx2 19723 19725
    ⟨rfl, by decide, Or.inl ⟨rfl, by decide⟩⟩
    ⟨by simp [rawEx2, List.chain'_cons, List.chain'_singleton, valueDay], by decide⟩ rfl

/-- C3: a provider failure on one ticker is uncaught — the run aborts with
that error, the world is left exactly as it was after the successfully
processed prefix, and no database write happens for the failing ticker or
any ticker after it. -/
theorem C3_fetch_failure_aborts (download : String → Except String RawFrame)
    (db_path : String) (fs : FileSys) (pre post : List String) (t e : String)
    (hdl : download t = .error e)
    (hpre : (runMain download db_path fs pre).2 = none) :
    runMain download db_path fs (pre ++ t :: post) =
      ((runMain download db_path fs pre).1, some e) := by
  induction pre generalizing fs with
  | nil => simp [runMain, hdl]
  | cons p pre ih =>
    cases hdp : download p with
    | error e' => simp [runMain, hdp] at hpre
    | ok raw =>
      cases hfd : fetch_data raw p with
      | none => simp [runMain, hdp, hfd] at hpre
      | some df =>
        cases herr : (ingest_to_duckdb fs df db_path "stock_prices").err with
        | some e' => simp [runMain, hdp, hfd, herr] at hpre
        | none =>
          have hpre' : (runMain download db_path
              (ingest_to_duckdb fs df db_path "stock_prices").fs pre).2 = none := by
            simpa [runMain, hdp, hfd, herr] using hpre
          simp only [List.cons_append, runMain, hdp, hfd, herr]
          exact ih (ingest_to_duckdb fs df db_path "stock_prices").fs hpre'

/-- Provider model for the C3 witness: `SPY` resolves, any other symbol is
an unrecognized ticker and fails. -/
def downloadEx : String → Except String RawFrame :=
  fun t => if t = "SPY" then .ok rawEx2 else .error "unknown ticker"

theorem C3_fetch_failure_aborts_witness :
    runMain downloadEx "data/financial.duckdb" fs0 (["SPY"] ++ "WRONG" :: ["AAPL"]) =
      ((runMain downloadEx "data/financial.duckdb" fs0 ["SPY"]).1, some "unknown ticker") :=
  C3_fetch_failure_aborts downloadEx "data/financial.duckdb" fs0 ["SPY"] ["AAPL"]
    "WRONG" "unknown ticker" rfl rfl
